import Mathlib

/-!
Verification of the statistics-driven filter simplification stage
(`src/optimizer/statistics/operator/propagate_filter.cpp`).

The embedding models typed scalar values, per-column statistics, the
statistics store (an association list keyed by column binding), the
comparison range narrower, the comparison dispatcher, and the filter
simplification loop of `StatisticsPropagator::PropagateStatistics`.
External collaborators (expression propagation, child propagation) are
parameters of the embedded functions.
-/

namespace PropagateFilter

/-- Typed scalar value: null, a numeric (integer) value, or a boolean. -/
inductive Value where
  | null : Value
  | intVal (i : Int) : Value
  | boolVal (b : Bool) : Value
deriving DecidableEq, Repr

/-- `Value::IsNull()`. -/
def Value.isNull : Value → Bool
  | .null => true
  | _ => false

/-- `Value::operator<` in the numeric contexts in which the source uses it
(all comparison sites are guarded by `IsNull` checks on numeric statistics). -/
def Value.ltb : Value → Value → Bool
  | .intVal a, .intVal b => decide (a < b)
  | _, _ => false

/-- `Value::operator>` in the numeric contexts in which the source uses it. -/
def Value.gtb (a b : Value) : Bool := Value.ltb b a

/-- Comparison expression types (`ExpressionType::COMPARE_*`), plus a
constructor for every non-comparison type reaching the `default` branches. -/
inductive ExpressionType where
  | lessThan
  | lessThanOrEqualTo
  | greaterThan
  | greaterThanOrEqualTo
  | equal
  | notEqual
  | invalid
deriving DecidableEq, Repr

/-- Modelled from the spec: the mirror of a comparison used when the constant
is on the left ("flip `cmpType` to its mirror so the column becomes the
canonical left operand"): swaps `<` with `>` and `<=` with `>=`, leaves `=`
(and every non-ordering comparator) unchanged.  The body of
`FlipComparisionExpression` itself is outside the studied slice. -/
def FlipComparisionExpression : ExpressionType → ExpressionType
  | .lessThan => .greaterThan
  | .greaterThan => .lessThan
  | .lessThanOrEqualTo => .greaterThanOrEqualTo
  | .greaterThanOrEqualTo => .lessThanOrEqualTo
  | c => c

/-- The statistics variant: `NumericStatistics` carries `min` and `max`
(which may themselves be null values); every other statistics kind is
opaque to this component. -/
inductive StatisticsVariant where
  | numeric (min max : Value) : StatisticsVariant
  | other : StatisticsVariant
deriving DecidableEq, Repr

/-- `BaseStatistics`: the nullability envelope (`validity_stats`; `hasNull =
false` after `make_unique<ValidityStatistics>(false)`) plus the variant. -/
structure BaseStatistics where
  hasNull : Bool
  variant : StatisticsVariant
deriving DecidableEq, Repr

/-- `StatisticsPropagator::UpdateFilterStatistics(BaseStatistics &stats,
ExpressionType comparison_type, const Value &constant)`: narrow one column's
statistics against a constant.  The validity write happens before the
numeric / null-bounds checks, exactly as in the source. -/
def updateFilterStatisticsConstant (stats : BaseStatistics)
    (comparisonType : ExpressionType) (constant : Value) : BaseStatistics :=
  -- any comparison filter removes all null values
  let stats : BaseStatistics := { stats with hasNull := false }
  match stats.variant with
  | .other => stats
  | .numeric mn mx =>
    if mn.isNull || mx.isNull then
      -- no stats available: skip this
      stats
    else
      match comparisonType with
      | .lessThan | .lessThanOrEqualTo =>
        -- X < constant OR X <= constant: max becomes the constant
        { stats with variant := .numeric mn constant }
      | .greaterThan | .greaterThanOrEqualTo =>
        -- X > constant OR X >= constant: min becomes the constant
        { stats with variant := .numeric constant mx }
      | .equal =>
        -- X = constant: both min and max become the constant
        { stats with variant := .numeric constant constant }
      | _ => stats

/-- `StatisticsPropagator::UpdateFilterStatistics(BaseStatistics &lstats,
BaseStatistics &rstats, ExpressionType comparison_type)`: narrow two columns'
statistics against each other.  Returns the (left, right) pair of updated
statistics. -/
def updateFilterStatisticsPair (lstats rstats : BaseStatistics)
    (comparisonType : ExpressionType) : BaseStatistics × BaseStatistics :=
  -- any comparison filter removes all null values
  let lstats : BaseStatistics := { lstats with hasNull := false }
  let rstats : BaseStatistics := { rstats with hasNull := false }
  match lstats.variant, rstats.variant with
  | .numeric lmin lmax, .numeric rmin rmax =>
    if lmin.isNull || lmax.isNull || rmin.isNull || rmax.isNull then
      -- no stats available: skip this
      (lstats, rstats)
    else
      match comparisonType with
      | .lessThan | .lessThanOrEqualTo =>
        -- left.max is at most right.max; right.min is at least left.min
        let lmax2 := if Value.gtb lmax rmax then rmax else lmax
        let rmin2 := if Value.ltb rmin lmin then lmin else rmin
        ({ lstats with variant := .numeric lmin lmax2 },
         { rstats with variant := .numeric rmin2 rmax })
      | .greaterThan | .greaterThanOrEqualTo =>
        -- the inverse of the less-than scenario
        let rmax2 := if Value.gtb rmax lmax then lmax else rmax
        let lmin2 := if Value.ltb lmin rmin then rmin else lmin
        ({ lstats with variant := .numeric lmin2 lmax },
         { rstats with variant := .numeric rmin rmax2 })
      | .equal =>
        -- only the tightest bounds pass: if left.min > right.min the value is
        -- written into right.min, otherwise right.min's value into left.min;
        -- if left.max < right.max the value is written into right.max,
        -- otherwise right.max's value into left.max
        let newMin := if Value.gtb lmin rmin then lmin else rmin
        let newMax := if Value.ltb lmax rmax then lmax else rmax
        ({ lstats with variant := .numeric newMin newMax },
         { rstats with variant := .numeric newMin newMax })
      | _ => (lstats, rstats)
  | _, _ => (lstats, rstats)

/-- `ColumnBinding`: (table index, column index), compared by exact identity. -/
abbrev ColumnBinding := Nat × Nat

/-- The statistics store `statistics_map`: `ColumnBinding → owned
BaseStatistics`, embedded as an association list (absent key = "no
information available"). -/
abbrev StatsMap := List (ColumnBinding × BaseStatistics)

/-- `statistics_map.find(binding)`: first entry with the given key. -/
def findStats : StatsMap → ColumnBinding → Option BaseStatistics
  | [], _ => none
  | (k, s) :: rest, b => if k = b then some s else findStats rest b

/-- In-place mutation of the found entry's statistics: replaces the first
entry with the given key, leaves the map unchanged when the key is absent. -/
def setStats : StatsMap → ColumnBinding → BaseStatistics → StatsMap
  | [], _, _ => []
  | (k, t) :: rest, b, s =>
    if k = b then (k, s) :: rest else (k, t) :: setStats rest b s

/-- `StatisticsPropagator::SetStatisticsNotNull(ColumnBinding)`: if the
binding has an entry, set its validity statistics to "no nulls". -/
def SetStatisticsNotNull (m : StatsMap) (b : ColumnBinding) : StatsMap :=
  match findStats m b with
  | none => m
  | some s => setStats m b { s with hasNull := false }

/-- Expression, polymorphic over the variants this component inspects.
`constantOrNull` is modelled from the spec: the recognized wrapper function
whose semantics are "evaluate to either the given value or null"
(`ConstantOrNull::IsConstantOrNull`, outside the studied slice).  The
Between node carries its two bound comparators directly, as in the spec's
expression capability `Between(input, lower, upper, lowerCmp, upperCmp)`. -/
inductive Expression where
  | columnRef (binding : ColumnBinding) : Expression
  | constant (value : Value) : Expression
  | comparison (cmpType : ExpressionType) (left right : Expression) : Expression
  | between (input lower upper : Expression)
      (lowerCmp upperCmp : ExpressionType) : Expression
  | constantOrNull (value : Value) : Expression
  | otherExpr : Expression
deriving DecidableEq, Repr

/-- `StatisticsPropagator::ExpressionIsConstant(expr, val)`: `expr` is a bound
constant whose value equals `val`. -/
def ExpressionIsConstant (e : Expression) (v : Value) : Bool :=
  match e with
  | .constant w => w = v
  | _ => false

/-- `StatisticsPropagator::ExpressionIsConstantOrNull(expr, val)`: `expr` is a
constant-or-null wrapper around `val`. -/
def ExpressionIsConstantOrNull (e : Expression) (v : Value) : Bool :=
  match e with
  | .constantOrNull w => w = v
  | _ => false

/-- `StatisticsPropagator::UpdateFilterStatistics(Expression &left,
Expression &right, ExpressionType comparison_type)`: mark column-reference
operands non-null, then classify the operand pair and narrow. -/
def updateFilterStatisticsExpr (m : StatsMap) (left right : Expression)
    (comparisonType : ExpressionType) : StatsMap :=
  -- any column ref involved in a comparison will not be null afterwards
  let m := match left with
    | .columnRef b => SetStatisticsNotNull m b
    | _ => m
  let m := match right with
    | .columnRef b => SetStatisticsNotNull m b
    | _ => m
  match left, right with
  | .constant v, .columnRef b =>
    -- constant vs column: flip the comparison
    (match findStats m b with
     | none => m
     | some s =>
       setStats m b
         (updateFilterStatisticsConstant s (FlipComparisionExpression comparisonType) v))
  | .columnRef b, .constant v =>
    (match findStats m b with
     | none => m
     | some s => setStats m b (updateFilterStatisticsConstant s comparisonType v))
  | .columnRef lb, .columnRef rb =>
    -- comparison between two column refs
    (match findStats m lb, findStats m rb with
     | some ls, some rs =>
       let p := updateFilterStatisticsPair ls rs comparisonType
       setStats (setStats m lb p.1) rb p.2
     | _, _ => m)
  | _, _ =>
    -- unsupported filter
    m

/-- `StatisticsPropagator::UpdateFilterStatistics(Expression &condition)`:
dispatch over the condition's expression class. -/
def updateFilterStatistics (m : StatsMap) (condition : Expression) : StatsMap :=
  match condition with
  | .between input lower upper lowerCmp upperCmp =>
    updateFilterStatisticsExpr
      (updateFilterStatisticsExpr m input lower lowerCmp) input upper upperCmp
  | .comparison cmpType l r => updateFilterStatisticsExpr m l r cmpType
  | _ => m

/-- Modelled from the spec: `NodeStatistics` carries "at minimum a
maximum-cardinality bound and an exact flag" (its full definition is outside
the studied slice); `NodeStatistics(0, 0)` is the zero-row result, cardinality
0 with the exact flag set. -/
structure NodeStatistics where
  maxCardinality : Nat
  isExact : Bool
deriving DecidableEq, Repr

/-- Outcome of the predicate-processing loop of
`StatisticsPropagator::PropagateStatistics(LogicalFilter &, ...)`. -/
inductive FilterOutcome where
  | survives
  | filterRemoved
  | emptyResult
deriving DecidableEq, Repr

/-- The predicate loop of `PropagateStatistics(LogicalFilter &, ...)`.
`propExpr` is the external expression-propagation collaborator
(`PropagateExpression`), which may mutate the store and rewrite the
condition in place.  `kept` holds the already-processed conditions still in
`filter.expressions`; the third argument holds the conditions not yet
visited. -/
def processPredicates (propExpr : StatsMap → Expression → StatsMap × Expression) :
    StatsMap → List Expression → List Expression →
    StatsMap × List Expression × FilterOutcome
  | m, kept, [] => (m, kept, .survives)
  | m, kept, c :: rest =>
    let m1 := (propExpr m c).1
    let c1 := (propExpr m c).2
    if ExpressionIsConstant c1 (.boolVal true) then
      -- filter is always true; erase this condition
      if kept.isEmpty && rest.isEmpty then
        -- all conditions have been erased: remove the entire filter
        (m1, [], .filterRemoved)
      else
        processPredicates propExpr m1 kept rest
    else if ExpressionIsConstant c1 (.boolVal false)
        || ExpressionIsConstantOrNull c1 (.boolVal false) then
      -- filter is always false or null: replace by an empty result
      (m1, kept ++ c1 :: rest, .emptyResult)
    else
      -- cannot prune this filter: propagate statistics from the filter
      processPredicates propExpr (updateFilterStatistics m1 c1) (kept ++ [c1]) rest

/-- What happened to the filter node's slot in the parent. -/
inductive FilterResult where
  | replacedEmpty
  | replacedWithChild
  | kept (residual : List Expression) : FilterResult
deriving DecidableEq, Repr

/-- `StatisticsPropagator::PropagateStatistics(LogicalFilter &filter,
unique_ptr<LogicalOperator> *node_ptr)`.  `childIsEmpty` tells whether the
already-propagated child is the zero-row sentinel, `childStats` is the
`node_stats` returned by the child propagation, `m` the statistics store
after the child was propagated. -/
def PropagateStatisticsFilter
    (propExpr : StatsMap → Expression → StatsMap × Expression)
    (childIsEmpty : Bool) (childStats : NodeStatistics) (m : StatsMap)
    (exprs : List Expression) : NodeStatistics × StatsMap × FilterResult :=
  if childIsEmpty then
    (⟨0, true⟩, m, .replacedEmpty)
  else
    let r := processPredicates propExpr m [] exprs
    match r.2.2 with
    | .survives => (childStats, r.1, .kept r.2.1)
    | .filterRemoved => (childStats, r.1, .replacedWithChild)
    | .emptyResult => (⟨0, true⟩, r.1, .replacedEmpty)

/-- The invariant "min ≤ max" on numeric statistics with recorded bounds
(trivially true for other variants and for absent bounds). -/
def rangeOk (s : BaseStatistics) : Bool :=
  match s.variant with
  | .numeric (.intVal a) (.intVal b) => decide (a ≤ b)
  | _ => true

/-! ### Helper lemmas about the statistics store -/

theorem findStats_setStats_self (m : StatsMap) (b : ColumnBinding)
    (s t : BaseStatistics) (h : findStats m b = some t) :
    findStats (setStats m b s) b = some s := by
  induction m with
  | nil => simp [findStats] at h
  | cons hd rest ih =>
    obtain ⟨k, u⟩ := hd
    by_cases hk : k = b
    · simp [findStats, setStats, hk]
    · simp [findStats, setStats, hk] at h ⊢
      exact ih h

theorem SetStatisticsNotNull_found (m : StatsMap) (b : ColumnBinding)
    (t : BaseStatistics) (h : findStats m b = some t) :
    SetStatisticsNotNull m b = setStats m b ⟨false, t.variant⟩ := by
  unfold SetStatisticsNotNull
  rw [h]

theorem updateFilterStatisticsExpr_col_const (m : StatsMap) (b : ColumnBinding)
    (s : BaseStatistics) (cmp : ExpressionType) (v : Value)
    (h : findStats m b = some s) :
    updateFilterStatisticsExpr m (.columnRef b) (.constant v) cmp
      = setStats (setStats m b ⟨false, s.variant⟩) b
          (updateFilterStatisticsConstant ⟨false, s.variant⟩ cmp v)
    ∧ findStats (updateFilterStatisticsExpr m (.columnRef b) (.constant v) cmp) b
      = some (updateFilterStatisticsConstant ⟨false, s.variant⟩ cmp v) := by
  have e1 := SetStatisticsNotNull_found m b s h
  have e2 := findStats_setStats_self m b ⟨false, s.variant⟩ s h
  have e3 : updateFilterStatisticsExpr m (.columnRef b) (.constant v) cmp
      = setStats (setStats m b ⟨false, s.variant⟩) b
          (updateFilterStatisticsConstant ⟨false, s.variant⟩ cmp v) := by
    simp only [updateFilterStatisticsExpr]
    rw [e1, e2]
  refine ⟨e3, ?_⟩
  rw [e3]
  exact findStats_setStats_self _ b _ _ e2

theorem processPredicates_append
    (propExpr : StatsMap → Expression → StatsMap × Expression)
    (pre : List Expression) :
    ∀ (m : StatsMap) (kept suffix : List Expression),
    (processPredicates propExpr m kept pre).2.2 = .survives →
    processPredicates propExpr m kept (pre ++ suffix)
      = processPredicates propExpr (processPredicates propExpr m kept pre).1
          (processPredicates propExpr m kept pre).2.1 suffix := by
  induction pre with
  | nil =>
    intro m kept suffix _
    simp [processPredicates]
  | cons c pre ih =>
    intro m kept suffix h
    by_cases h1 : ExpressionIsConstant (propExpr m c).2 (.boolVal true) = true
    · by_cases h2 : (kept.isEmpty && pre.isEmpty) = true
      · exfalso
        simp [processPredicates, h1, h2] at h
      · have h2f : (kept.isEmpty && pre.isEmpty) = false := by
          simpa using h2
        have h3 : (kept.isEmpty && (pre ++ suffix).isEmpty) = false := by
          cases kept <;> cases pre <;> simp_all
        have h' : (processPredicates propExpr (propExpr m c).1 kept pre).2.2
            = .survives := by
          simpa [processPredicates, h1, h2f] using h
        simp [processPredicates, h1, h2f, h3]
        exact ih (propExpr m c).1 kept suffix h'
    · by_cases h4 : (ExpressionIsConstant (propExpr m c).2 (.boolVal false)
          || ExpressionIsConstantOrNull (propExpr m c).2 (.boolVal false)) = true
      · exfalso
        simp [processPredicates, h1, h4] at h
      · have h' : (processPredicates propExpr
            (updateFilterStatistics (propExpr m c).1 (propExpr m c).2)
            (kept ++ [(propExpr m c).2]) pre).2.2 = .survives := by
          simpa [processPredicates, h1, h4] using h
        simp [processPredicates, h1, h4]
        exact ih _ _ suffix h'

/-! ### Claim theorems -/

/-- C1: under equality narrowing of two Numeric statistics with non-null
bounds, both sides' min become the larger of the two mins and both sides'
max the smaller of the two maxes; when `left.min > right.min` the value
written into the right side's storage is `left.min` (and symmetrically for
the other branch), and when `left.max < right.max` the value written into
the right side's storage is `left.max`. -/
theorem equality_narrowing_converges (lstats rstats : BaseStatistics)
    (lm lM rm rM : Int)
    (hl : lstats.variant = .numeric (.intVal lm) (.intVal lM))
    (hr : rstats.variant = .numeric (.intVal rm) (.intVal rM)) :
    (updateFilterStatisticsPair lstats rstats .equal).1
      = ⟨false, .numeric (.intVal (max lm rm)) (.intVal (min lM rM))⟩
    ∧ (updateFilterStatisticsPair lstats rstats .equal).2
      = ⟨false, .numeric (.intVal (max lm rm)) (.intVal (min lM rM))⟩
    ∧ (lm > rm → (updateFilterStatisticsPair lstats rstats .equal).2.variant
        = .numeric (.intVal lm) (.intVal (min lM rM)))
    ∧ (lm ≤ rm → (updateFilterStatisticsPair lstats rstats .equal).1.variant
        = .numeric (.intVal rm) (.intVal (min lM rM)))
    ∧ (lM < rM → (updateFilterStatisticsPair lstats rstats .equal).2.variant
        = .numeric (.intVal (max lm rm)) (.intVal lM))
    ∧ (rM ≤ lM → (updateFilterStatisticsPair lstats rstats .equal).1.variant
        = .numeric (.intVal (max lm rm)) (.intVal rM)) := by
  obtain ⟨lN, lv⟩ := lstats
  obtain ⟨rN, rv⟩ := rstats
  simp only at hl hr
  subst hl hr
  by_cases h1 : rm < lm <;> by_cases h2 : lM < rM <;>
    simp [updateFilterStatisticsPair, Value.gtb, Value.ltb, Value.isNull,
      h1, h2] <;>
    constructor <;> omega

/-- C1 witness. -/
theorem equality_narrowing_converges_witness :
    (updateFilterStatisticsPair
        ⟨true, .numeric (.intVal 5) (.intVal 10)⟩
        ⟨false, .numeric (.intVal 3) (.intVal 20)⟩ .equal).1
      = ⟨false, .numeric (.intVal (max 5 3)) (.intVal (min 10 20))⟩ :=
  (equality_narrowing_converges _ _ 5 10 3 20 rfl rfl).1

/-- C2 counterexample: equality narrowing of the disjoint ranges `[0, 1]` and
`[5, 6]` produces `min = 5, max = 1` on both sides, violating `min ≤ max`
even though both input ranges satisfied it. -/
theorem narrowing_can_violate_range_invariant :
    rangeOk ⟨true, .numeric (.intVal 0) (.intVal 1)⟩ = true
    ∧ rangeOk ⟨true, .numeric (.intVal 5) (.intVal 6)⟩ = true
    ∧ (updateFilterStatisticsPair ⟨true, .numeric (.intVal 0) (.intVal 1)⟩
        ⟨true, .numeric (.intVal 5) (.intVal 6)⟩ .equal)
      = (⟨false, .numeric (.intVal 5) (.intVal 1)⟩,
         ⟨false, .numeric (.intVal 5) (.intVal 1)⟩)
    ∧ rangeOk (updateFilterStatisticsPair ⟨true, .numeric (.intVal 0) (.intVal 1)⟩
        ⟨true, .numeric (.intVal 5) (.intVal 6)⟩ .equal).1 = false
    ∧ rangeOk (updateFilterStatisticsPair ⟨true, .numeric (.intVal 0) (.intVal 1)⟩
        ⟨true, .numeric (.intVal 5) (.intVal 6)⟩ .equal).2 = false := by
  decide

/-- C2 amended: narrowing preserves `min ≤ max` when the comparison is
satisfiable against the input ranges — for `NarrowAgainstConstant`, when the
constant lies within the column's range; for `NarrowColumnPair`, when the two
input ranges intersect.  (Disjoint ranges under equality violate the
invariant, see the counterexample.) -/
theorem narrowing_preserves_range_when_satisfiable
    (hasN hasN2 : Bool) (mn mx c lm lM rm rM : Int) (cmp : ExpressionType)
    (h1 : mn ≤ mx) (h2 : mn ≤ c) (h3 : c ≤ mx)
    (h4 : lm ≤ lM) (h5 : rm ≤ rM) (h6 : max lm rm ≤ min lM rM) :
    rangeOk (updateFilterStatisticsConstant
        ⟨hasN, .numeric (.intVal mn) (.intVal mx)⟩ cmp (.intVal c)) = true
    ∧ rangeOk (updateFilterStatisticsPair
        ⟨hasN, .numeric (.intVal lm) (.intVal lM)⟩
        ⟨hasN2, .numeric (.intVal rm) (.intVal rM)⟩ cmp).1 = true
    ∧ rangeOk (updateFilterStatisticsPair
        ⟨hasN, .numeric (.intVal lm) (.intVal lM)⟩
        ⟨hasN2, .numeric (.intVal rm) (.intVal rM)⟩ cmp).2 = true := by
  cases cmp <;>
    simp [updateFilterStatisticsConstant, updateFilterStatisticsPair,
      rangeOk, Value.gtb, Value.ltb, Value.isNull] <;>
    first
      | omega
      | (split_ifs <;> simp <;> omega)

/-- C2 witness. -/
theorem narrowing_preserves_range_when_satisfiable_witness :
    rangeOk (updateFilterStatisticsConstant
        ⟨true, .numeric (.intVal 0) (.intVal 10)⟩ .equal (.intVal 5)) = true
    ∧ rangeOk (updateFilterStatisticsPair
        ⟨true, .numeric (.intVal 0) (.intVal 10)⟩
        ⟨false, .numeric (.intVal 5) (.intVal 15)⟩ .equal).1 = true
    ∧ rangeOk (updateFilterStatisticsPair
        ⟨true, .numeric (.intVal 0) (.intVal 10)⟩
        ⟨false, .numeric (.intVal 5) (.intVal 15)⟩ .equal).2 = true :=
  narrowing_preserves_range_when_satisfiable true false 0 10 5 0 10 5 15 .equal
    (by decide) (by decide) (by decide) (by decide) (by decide) (by decide)

/-- C6: `NarrowAgainstConstant` on Numeric statistics with both bounds
present: `<` and `<=` set max to exactly the constant leaving min unchanged,
`>` and `>=` set min to exactly the constant leaving max unchanged, `=` sets
both to the constant, and any other comparator changes neither bound. -/
theorem narrow_against_constant_policy (hasN : Bool) (mn mx c : Value)
    (hmn : mn.isNull = false) (hmx : mx.isNull = false) :
    (updateFilterStatisticsConstant ⟨hasN, .numeric mn mx⟩ .lessThan c).variant
      = .numeric mn c
    ∧ (updateFilterStatisticsConstant ⟨hasN, .numeric mn mx⟩ .lessThanOrEqualTo c).variant
      = .numeric mn c
    ∧ (updateFilterStatisticsConstant ⟨hasN, .numeric mn mx⟩ .greaterThan c).variant
      = .numeric c mx
    ∧ (updateFilterStatisticsConstant ⟨hasN, .numeric mn mx⟩ .greaterThanOrEqualTo c).variant
      = .numeric c mx
    ∧ (updateFilterStatisticsConstant ⟨hasN, .numeric mn mx⟩ .equal c).variant
      = .numeric c c
    ∧ (updateFilterStatisticsConstant ⟨hasN, .numeric mn mx⟩ .notEqual c).variant
      = .numeric mn mx
    ∧ (updateFilterStatisticsConstant ⟨hasN, .numeric mn mx⟩ .invalid c).variant
      = .numeric mn mx := by
  simp [updateFilterStatisticsConstant, hmn, hmx]

/-- C6 witness. -/
theorem narrow_against_constant_policy_witness :
    (updateFilterStatisticsConstant
        ⟨true, .numeric (.intVal 0) (.intVal 100)⟩ .lessThan (.intVal 50)).variant
      = .numeric (.intVal 0) (.intVal 50) :=
  (narrow_against_constant_policy true (.intVal 0) (.intVal 100) (.intVal 50)
    rfl rfl).1

/-- C3 counterexample: propagating `col >= 3` on a numeric column whose
stored min is null does change a field of the stored statistics — the
nullability flag flips from "may contain nulls" to "no nulls". -/
theorem propagate_ge_missing_bounds_sets_not_null :
    updateFilterStatistics [((0, 0), ⟨true, .numeric .null (.intVal 5)⟩)]
      (.comparison .greaterThanOrEqualTo (.columnRef (0, 0)) (.constant (.intVal 3)))
    = [((0, 0), ⟨false, .numeric .null (.intVal 5)⟩)]
    ∧ (⟨false, .numeric .null (.intVal 5)⟩ : BaseStatistics)
      ≠ ⟨true, .numeric .null (.intVal 5)⟩ := by
  decide

/-- C3 amended: propagating `col >= constant` on a numeric column with a
null min or max leaves the column's recorded bounds (the statistics variant)
unchanged — narrowing is skipped — but sets the nullability flag to
non-null. -/
theorem propagate_ge_missing_bounds_frame (m : StatsMap) (b : ColumnBinding)
    (c : Value) (s : BaseStatistics) (mn mx : Value)
    (hfind : findStats m b = some s)
    (hv : s.variant = .numeric mn mx)
    (hnull : (mn.isNull || mx.isNull) = true) :
    findStats (updateFilterStatistics m
        (.comparison .greaterThanOrEqualTo (.columnRef b) (.constant c))) b
      = some ⟨false, s.variant⟩ := by
  have e3 : updateFilterStatisticsConstant ⟨false, s.variant⟩
      .greaterThanOrEqualTo c = ⟨false, s.variant⟩ := by
    rw [hv]
    simp [updateFilterStatisticsConstant, hnull]
  have h2 := (updateFilterStatisticsExpr_col_const m b s
    .greaterThanOrEqualTo c hfind).2
  rw [e3] at h2
  exact h2

/-- C3 witness. -/
theorem propagate_ge_missing_bounds_frame_witness :
    findStats (updateFilterStatistics [((1, 1), ⟨true, .numeric .null (.intVal 5)⟩)]
        (.comparison .greaterThanOrEqualTo (.columnRef (1, 1)) (.constant (.intVal 3)))) (1, 1)
      = some ⟨false, .numeric .null (.intVal 5)⟩ :=
  propagate_ge_missing_bounds_frame _ (1, 1) (.intVal 3)
    ⟨true, .numeric .null (.intVal 5)⟩ .null (.intVal 5) rfl rfl rfl

/-- C7: dispatching a Between condition updates the store exactly as
dispatching the two synthesized comparisons in order (input vs lower with the
lower-bound comparator, then input vs upper with the upper-bound comparator);
consequently `BETWEEN col 10 AND 20` with inclusive bounds leaves the column
with min 10, max 20 and the non-null flag, hence min ≥ 10 and max ≤ 20. -/
theorem between_dispatch_equals_two_comparisons :
    (∀ (m : StatsMap) (input lower upper : Expression) (lc uc : ExpressionType),
      updateFilterStatistics m (.between input lower upper lc uc)
        = updateFilterStatistics
            (updateFilterStatistics m (.comparison lc input lower))
            (.comparison uc input upper))
    ∧ (∀ (m : StatsMap) (b : ColumnBinding) (hasN : Bool) (mn mx : Int),
      findStats m b = some ⟨hasN, .numeric (.intVal mn) (.intVal mx)⟩ →
      findStats (updateFilterStatistics m
          (.between (.columnRef b) (.constant (.intVal 10)) (.constant (.intVal 20))
            .greaterThanOrEqualTo .lessThanOrEqualTo)) b
        = some ⟨false, .numeric (.intVal 10) (.intVal 20)⟩) := by
  constructor
  · intro m input lower upper lc uc
    rfl
  · intro m b hasN mn mx h
    have step1 := updateFilterStatisticsExpr_col_const m b
      ⟨hasN, .numeric (.intVal mn) (.intVal mx)⟩ .greaterThanOrEqualTo
      (.intVal 10) h
    have e1 : updateFilterStatisticsConstant
        ⟨false, .numeric (.intVal mn) (.intVal mx)⟩ .greaterThanOrEqualTo
        (.intVal 10) = ⟨false, .numeric (.intVal 10) (.intVal mx)⟩ := by
      simp [updateFilterStatisticsConstant, Value.isNull]
    rw [e1] at step1
    have step2 := updateFilterStatisticsExpr_col_const _ b
      ⟨false, .numeric (.intVal 10) (.intVal mx)⟩ .lessThanOrEqualTo
      (.intVal 20) step1.2
    have e2 : updateFilterStatisticsConstant
        ⟨false, .numeric (.intVal 10) (.intVal mx)⟩ .lessThanOrEqualTo
        (.intVal 20) = ⟨false, .numeric (.intVal 10) (.intVal 20)⟩ := by
      simp [updateFilterStatisticsConstant, Value.isNull]
    rw [e2] at step2
    exact step2.2

/-- C7 witness. -/
theorem between_dispatch_equals_two_comparisons_witness :
    findStats (updateFilterStatistics
        [((1, 2), ⟨true, .numeric (.intVal 0) (.intVal 100)⟩)]
        (.between (.columnRef (1, 2)) (.constant (.intVal 10)) (.constant (.intVal 20))
          .greaterThanOrEqualTo .lessThanOrEqualTo)) (1, 2)
      = some ⟨false, .numeric (.intVal 10) (.intVal 20)⟩ :=
  between_dispatch_equals_two_comparisons.2 _ (1, 2) true 0 100 rfl

/-- C8: dispatching a comparison with the constant on the left updates the
statistics store exactly as dispatching it with the column on the left under
the mirrored comparator. -/
theorem constant_left_equals_flipped (m : StatsMap) (v : Value)
    (b : ColumnBinding) (cmp : ExpressionType) :
    updateFilterStatisticsExpr m (.constant v) (.columnRef b) cmp
      = updateFilterStatisticsExpr m (.columnRef b) (.constant v)
          (FlipComparisionExpression cmp) := rfl

/-- C4: if the predicates before position `i` are processed without a
rewrite and the predicate at position `i` is proven literal false or
constant-or-null false, the filter's slot is replaced by the zero-row
sentinel and `NodeStatistics{cardinality 0, exact}` is returned immediately;
the resulting statistics store is exactly the store right after the
expression-propagation call on that predicate — the predicates after
position `i` (here the arbitrary list `rest`) contribute nothing. -/
theorem false_predicate_short_circuits
    (propExpr : StatsMap → Expression → StatsMap × Expression)
    (childStats : NodeStatistics) (m m1 : StatsMap)
    (pre rest : List Expression) (c c1 : Expression)
    (hpre : (processPredicates propExpr m [] pre).2.2 = .survives)
    (hc : propExpr (processPredicates propExpr m [] pre).1 c = (m1, c1))
    (hfold : (ExpressionIsConstant c1 (.boolVal false)
        || ExpressionIsConstantOrNull c1 (.boolVal false)) = true) :
    PropagateStatisticsFilter propExpr false childStats m (pre ++ c :: rest)
      = (⟨0, true⟩, m1, .replacedEmpty) := by
  have hT : ExpressionIsConstant c1 (.boolVal true) = false := by
    cases c1 <;> simp_all [ExpressionIsConstant, ExpressionIsConstantOrNull]
  simp only [PropagateStatisticsFilter, Bool.false_eq_true, if_false,
    ite_false]
  rw [processPredicates_append propExpr pre m [] (c :: rest) hpre]
  simp [processPredicates, hc, hT, hfold]

/-- C4 witness: predicate list `[FALSE, c0 = 1]`; the store keeps its
original contents and the equality predicate after the false one never
narrows `c0`. -/
theorem false_predicate_short_circuits_witness :
    PropagateStatisticsFilter (fun m e => (m, e)) false ⟨42, false⟩
      [((0, 0), ⟨true, .numeric (.intVal 0) (.intVal 9)⟩)]
      [.constant (.boolVal false),
       .comparison .equal (.columnRef (0, 0)) (.constant (.intVal 1))]
      = (⟨0, true⟩, [((0, 0), ⟨true, .numeric (.intVal 0) (.intVal 9)⟩)],
         .replacedEmpty) :=
  false_predicate_short_circuits (fun m e => (m, e)) ⟨42, false⟩
    [((0, 0), ⟨true, .numeric (.intVal 0) (.intVal 9)⟩)]
    [((0, 0), ⟨true, .numeric (.intVal 0) (.intVal 9)⟩)] []
    [.comparison .equal (.columnRef (0, 0)) (.constant (.intVal 1))]
    (.constant (.boolVal false)) (.constant (.boolVal false)) rfl rfl rfl

/-- C5: a filter that survives predicate processing (outcome `survives`,
child not the zero-row sentinel) returns exactly the child's
`NodeStatistics`, its maximum-cardinality bound included. -/
theorem surviving_filter_inherits_child_stats
    (propExpr : StatsMap → Expression → StatsMap × Expression)
    (childStats : NodeStatistics) (m : StatsMap) (exprs : List Expression)
    (h : (processPredicates propExpr m [] exprs).2.2 = .survives) :
    (PropagateStatisticsFilter propExpr false childStats m exprs).1
      = childStats := by
  simp only [PropagateStatisticsFilter, Bool.false_eq_true, if_false,
    ite_false]
  split <;> simp_all

/-- C5 witness. -/
theorem surviving_filter_inherits_child_stats_witness :
    (PropagateStatisticsFilter (fun m e => (m, e)) false ⟨9, false⟩ []
      [.otherExpr]).1 = ⟨9, false⟩ :=
  surviving_filter_inherits_child_stats (fun m e => (m, e)) ⟨9, false⟩ []
    [.otherExpr] rfl

/-- C9: a predicate proven literal true is erased and processing continues
with every remaining predicate (none skipped); if the predicate list thereby
becomes empty the filter's slot is rewritten to the child and processing
stops; in particular a filter whose list is `[TRUE]` becomes exactly its
child with zero residual predicates (and the child's statistics). -/
theorem true_predicate_erased
    (propExpr : StatsMap → Expression → StatsMap × Expression)
    (m m1 : StatsMap) (c c1 : Expression) (kept rest : List Expression)
    (childStats : NodeStatistics)
    (hc : propExpr m c = (m1, c1))
    (htrue : ExpressionIsConstant c1 (.boolVal true) = true) :
    ((kept.isEmpty && rest.isEmpty) = false →
      processPredicates propExpr m kept (c :: rest)
        = processPredicates propExpr m1 kept rest)
    ∧ (kept = [] → rest = [] →
      processPredicates propExpr m kept (c :: rest) = (m1, [], .filterRemoved))
    ∧ (propExpr m (.constant (.boolVal true)) = (m, .constant (.boolVal true)) →
      PropagateStatisticsFilter propExpr false childStats m
          [.constant (.boolVal true)]
        = (childStats, m, .replacedWithChild)) := by
  refine ⟨?_, ?_, ?_⟩
  · intro h
    simp [processPredicates, hc, htrue, h]
  · intro h1 h2
    subst h1 h2
    simp [processPredicates, hc, htrue]
  · intro hid
    simp [PropagateStatisticsFilter, processPredicates, hid,
      ExpressionIsConstant]

/-- C9 witness: the `[TRUE]` filter becomes its child. -/
theorem true_predicate_erased_witness :
    PropagateStatisticsFilter (fun m e => (m, e)) false ⟨5, true⟩ []
      [.constant (.boolVal true)]
      = (⟨5, true⟩, [], .replacedWithChild) :=
  (true_predicate_erased (fun m e => (m, e)) [] [] (.constant (.boolVal true))
    (.constant (.boolVal true)) [] [] ⟨5, true⟩ rfl rfl).2.2 rfl

/-- C10: a filter with an empty predicate list (and a non-sentinel child)
is left in place, the statistics store is unchanged, and the child's
`NodeStatistics` is returned unchanged. -/
theorem empty_predicate_list_noop
    (propExpr : StatsMap → Expression → StatsMap × Expression)
    (childStats : NodeStatistics) (m : StatsMap) :
    PropagateStatisticsFilter propExpr false childStats m []
      = (childStats, m, .kept []) := rfl

end PropagateFilter
